import Mathlib

/-!
Verification of the Update Analysis & Scoring Pipeline.

Shallow embedding of the analytic core of the repository:
* `parse_json_array` — the Field Normalizer (src/routers/analytics.py, lines 28-42);
* `calculate_metrics` / `calculate_overall_score` — the Metric Extractor and the
  Score Aggregator (src/routers/performance.py, lines 19-213);
* `get_employee_ratings` — ranking and tier classification
  (src/routers/performance.py, lines 215-296);
* `get_productivity_trends` — the trends endpoint error path
  (src/routers/analytics.py, lines 48-118);
* `stalledPeriodsFor` — the Semantic Stall Detector
  (src/routers/analytics.py, lines 347-500);
* `get_keyword_repetition` — the Keyword Repetition Analyzer
  (src/main.py, lines 549-684).

Python machine reals are modelled by `ℚ` (exact arithmetic) except for the cosine
similarity of embedding vectors, which needs `Real.sqrt` and is modelled over `ℝ`.
-/

namespace EPragati

/-! ### Python value model

Values stored in the loosely-typed update sub-fields, as Python runtime values
after `json.loads`.  A raw stored string is carried together with the outcome of
`json.loads` on it (`none` models a `json.JSONDecodeError`). -/

/-- Model of a decoded Python/JSON value. -/
inductive PyVal where
  | pstr (s : String)
  | pnum (q : ℚ)
  | pbool (b : Bool)
  | pnull
  | plist (xs : List PyVal)

/-- Possible arguments of `parse_json_array`: Python `None`, an actual list, a
string together with its `json.loads` outcome, or a value of any other type
(on which `json.loads` raises a `TypeError`). -/
inductive PyArg where
  | anone
  | alist (xs : List PyVal)
  | astr (raw : String) (parsed : Option PyVal)
  | aother

/-- Embedding of `parse_json_array` (src/routers/analytics.py lines 28-42):
`None → []`; a list is returned as-is; a string is decoded, a decoded list is
returned and any other decoded value yields `[]`; a decode failure or a
`TypeError` from a wrong argument type is caught and yields `[]`. -/
def parse_json_array : PyArg → List PyVal
  | .anone => []
  | .alist xs => xs
  | .astr _ parsed =>
    match parsed with
    | none => []                      -- json.JSONDecodeError caught, [] returned
    | some (.plist xs) => xs
    | some _ => []                    -- data not a list
  | .aother => []                     -- TypeError caught by the generic handler

/-- Recognizer for string-valued elements of a normalized sequence. -/
def PyVal.isStr : PyVal → Bool
  | .pstr _ => true
  | _ => false

/-- C8: the Field Normalizer is idempotent: re-normalizing the (list-valued)
output of `parse_json_array` returns it unchanged. -/
theorem parse_json_array_idempotent (x : PyArg) :
    parse_json_array (PyArg.alist (parse_json_array x)) = parse_json_array x := by
  rfl

/-- C9 counterexample: at the concrete stored string `"[1]"`, which decodes to
the JSON array `[1]`, the normalizer returns a list whose element is a number,
not a string — refuting “elements are all strings”. -/
theorem parse_json_array_nonstring_output :
    (parse_json_array (PyArg.astr "[1]" (some (PyVal.plist [PyVal.pnum 1])))).all
      PyVal.isStr = false := by
  rfl

/-- C9 (amended): the normalizer always returns a concrete ordered list — never
null and never a non-list (its codomain is `List PyVal`) — mapping null/absent
to `[]`, an already-list value to itself, a string decoding to a JSON array to
that array's elements (of whatever type), and anything else (non-array JSON,
malformed JSON, wrong argument type) to `[]`. -/
theorem parse_json_array_postcondition :
    parse_json_array PyArg.anone = [] ∧
    (∀ xs, parse_json_array (PyArg.alist xs) = xs) ∧
    (∀ raw xs, parse_json_array (PyArg.astr raw (some (PyVal.plist xs))) = xs) ∧
    (∀ raw, parse_json_array (PyArg.astr raw none) = []) ∧
    (∀ raw v, (∀ xs, v ≠ PyVal.plist xs) →
      parse_json_array (PyArg.astr raw (some v)) = []) ∧
    parse_json_array PyArg.aother = [] := by
  refine ⟨rfl, fun xs => rfl, fun raw xs => rfl, fun raw => rfl, ?_, rfl⟩
  intro raw v hv
  cases v with
  | plist xs => exact absurd rfl (hv xs)
  | pstr s => rfl
  | pnum q => rfl
  | pbool b => rfl
  | pnull => rfl

/-- C9 witness: the amended postcondition evaluated at the concrete non-list
JSON value `"x"` (a decoded string). -/
theorem parse_json_array_postcondition_witness :
    parse_json_array (PyArg.astr "\"x\"" (some (PyVal.pstr "x"))) = [] :=
  parse_json_array_postcondition.2.2.2.2.1 "\"x\"" (PyVal.pstr "x")
    (fun xs h => by cases h)

/-! ### Score Aggregator (src/routers/performance.py, lines 186-213) -/

/-- Embedding of `schemas.PerformanceMetrics` (src/schemas.py, lines 69-84);
Python floats are modelled by `ℚ`. -/
structure PerformanceMetrics where
  productivity_score : ℚ
  completed_tasks_count : ℕ
  goals_achieved : ℕ
  project_completion_rate : ℚ
  update_frequency : ℚ
  collaboration_score : ℚ
  impact_score : ℚ
  consistency_score : ℚ
  innovation_score : ℚ
  quality_score : ℚ
  blockers_resolved : ℕ
  avg_task_complexity : ℚ
  milestone_completion_rate : ℚ
  knowledge_sharing : ℕ
  team_contributions : ℕ
  deriving DecidableEq

/-- Embedding of `calculate_overall_score` (src/routers/performance.py, lines
186-213): the weighted sum, in the insertion order of the `weights` dict, of the
normalized metrics with caps 20 tasks, 10 goals, 5 updates/week. -/
def calculate_overall_score (m : PerformanceMetrics) : ℚ :=
  m.productivity_score * 0.3
    + min 1 ((m.completed_tasks_count : ℚ) / 20) * 0.2
    + min 1 ((m.goals_achieved : ℚ) / 10) * 0.2
    + m.project_completion_rate * 0.2
    + min 1 (m.update_frequency / 5) * 0.1

/-- C6: the overall scalar equals
0.30·productivityScore + 0.20·min(1, completedTasksCount/20)
+ 0.20·min(1, goalsAchieved/10) + 0.20·projectCompletionRate
+ 0.10·min(1, updateFrequency/5), and the saturating input
(productivity 1.0, 20 tasks, 10 goals, completion rate 1.0, frequency 5)
scores exactly 1. -/
theorem overall_score_formula :
    (∀ m : PerformanceMetrics, calculate_overall_score m =
      0.3 * m.productivity_score + 0.2 * min 1 ((m.completed_tasks_count : ℚ) / 20)
        + 0.2 * min 1 ((m.goals_achieved : ℚ) / 10) + 0.2 * m.project_completion_rate
        + 0.1 * min 1 (m.update_frequency / 5)) ∧
    calculate_overall_score ⟨1, 20, 10, 1, 5, 0, 0, 0, 0, 0, 0, 0, 0, 0, 0⟩ = 1 := by
  constructor
  · intro m; unfold calculate_overall_score; ring
  · norm_num [calculate_overall_score]

/-! ### Stable descending sort

Python's `list.sort(key=…, reverse=True)` is a stable sort: elements with equal
keys keep their original relative order.  It is modelled by a stable insertion
sort: a new element (earlier in the input) is inserted in front of the first
already-placed element (later in the input) whose key is `≤` its own. -/

section StableSort

variable {α : Type} {K : Type} [LinearOrder K]

/-- Stable descending insertion: place `a` before the first element whose key
is at most `key a` (so `a`, which comes earlier in the input, precedes ties). -/
def insertDescBy (key : α → K) (a : α) : List α → List α
  | [] => [a]
  | b :: bs => if key b ≤ key a then a :: b :: bs else b :: insertDescBy key a bs

/-- Stable descending insertion sort, modelling `list.sort(key=…, reverse=True)`. -/
def sortDescBy (key : α → K) : List α → List α
  | [] => []
  | a :: as => insertDescBy key a (sortDescBy key as)

/-- Stable ascending insertion: place `a` before the first element whose key is
at least `key a` (so `a`, which comes earlier in the input, precedes ties). -/
def insertAscBy (key : α → K) (a : α) : List α → List α
  | [] => [a]
  | b :: bs => if key a ≤ key b then a :: b :: bs else b :: insertAscBy key a bs

/-- Stable ascending insertion sort, modelling `list.sort(key=…)`. -/
def sortAscBy (key : α → K) : List α → List α
  | [] => []
  | a :: as => insertAscBy key a (sortAscBy key as)

theorem insertDescBy_perm (key : α → K) (a : α) (l : List α) :
    List.Perm (insertDescBy key a l) (a :: l) := by
  induction l with
  | nil => exact List.Perm.refl _
  | cons b bs ih =>
    by_cases h : key b ≤ key a
    · rw [insertDescBy, if_pos h]
    · rw [insertDescBy, if_neg h]
      exact (ih.cons b).trans (List.Perm.swap a b bs)

theorem sortDescBy_perm (key : α → K) (l : List α) : List.Perm (sortDescBy key l) l := by
  induction l with
  | nil => exact List.Perm.refl _
  | cons a as ih => exact (insertDescBy_perm key a (sortDescBy key as)).trans (ih.cons a)

theorem length_sortDescBy (key : α → K) (l : List α) :
    (sortDescBy key l).length = l.length :=
  (sortDescBy_perm key l).length_eq

theorem mem_insertDescBy (key : α → K) (a x : α) (l : List α) :
    x ∈ insertDescBy key a l ↔ x = a ∨ x ∈ l := by
  rw [(insertDescBy_perm key a l).mem_iff, List.mem_cons]

theorem mem_sortDescBy (key : α → K) (x : α) (l : List α) :
    x ∈ sortDescBy key l ↔ x ∈ l :=
  (sortDescBy_perm key l).mem_iff

theorem insertDescBy_pairwise (key : α → K) (a : α) (l : List α)
    (h : l.Pairwise (fun x y => key y ≤ key x)) :
    (insertDescBy key a l).Pairwise (fun x y => key y ≤ key x) := by
  induction l with
  | nil => simp [insertDescBy]
  | cons b bs ih =>
    rcases List.pairwise_cons.mp h with ⟨hb, hbs⟩
    by_cases hba : key b ≤ key a
    · rw [insertDescBy, if_pos hba]
      refine List.pairwise_cons.mpr ⟨?_, h⟩
      intro y hy
      rcases List.mem_cons.mp hy with rfl | hy
      · exact hba
      · exact (hb y hy).trans hba
    · rw [insertDescBy, if_neg hba]
      refine List.pairwise_cons.mpr ⟨?_, ih hbs⟩
      intro y hy
      rcases (mem_insertDescBy key a y bs).mp hy with rfl | hy
      · exact le_of_lt (lt_of_not_le hba)
      · exact hb y hy

theorem sortDescBy_pairwise (key : α → K) (l : List α) :
    (sortDescBy key l).Pairwise (fun x y => key y ≤ key x) := by
  induction l with
  | nil => simp [sortDescBy]
  | cons a as ih => exact insertDescBy_pairwise key a (sortDescBy key as) ih

theorem filter_insertDescBy [DecidableEq K] (key : α → K) (q : K) (a : α) (l : List α) :
    (insertDescBy key a l).filter (fun x => decide (key x = q)) =
      if key a = q then a :: l.filter (fun x => decide (key x = q))
      else l.filter (fun x => decide (key x = q)) := by
  induction l with
  | nil =>
    by_cases h : key a = q
    · rw [insertDescBy, if_pos h]; simp [List.filter, h]
    · rw [insertDescBy, if_neg h]; simp [List.filter, h]
  | cons b bs ih =>
    by_cases hba : key b ≤ key a
    · rw [insertDescBy, if_pos hba]
      by_cases ha : key a = q
      · rw [if_pos ha, List.filter_cons_of_pos (by simp [ha])]
      · rw [if_neg ha, List.filter_cons_of_neg (by simp [ha])]
    · rw [insertDescBy, if_neg hba]
      have hb_gt : key a < key b := lt_of_not_le hba
      by_cases ha : key a = q
      · have hbq : ¬ key b = q := by
          intro hbq
          rw [ha, hbq] at hb_gt
          exact lt_irrefl q hb_gt
        rw [List.filter_cons_of_neg (by simp [hbq]), ih, if_pos ha, if_pos ha,
          List.filter_cons_of_neg (by simp [hbq])]
      · rw [if_neg ha]
        by_cases hbq : key b = q
        · rw [List.filter_cons_of_pos (by simp [hbq]), ih, if_neg ha,
            List.filter_cons_of_pos (by simp [hbq])]
        · rw [List.filter_cons_of_neg (by simp [hbq]), ih, if_neg ha,
            List.filter_cons_of_neg (by simp [hbq])]

theorem filter_sortDescBy [DecidableEq K] (key : α → K) (q : K) (l : List α) :
    (sortDescBy key l).filter (fun x => decide (key x = q)) =
      l.filter (fun x => decide (key x = q)) := by
  induction l with
  | nil => rfl
  | cons a as ih =>
    rw [sortDescBy, filter_insertDescBy, ih, List.filter_cons]
    by_cases h : key a = q <;> simp [h]

end StableSort

/-! ### Tier Classifier (src/routers/performance.py, lines 215-296) -/

/-- Embedding of `models.TeamMember` (src/models.py). -/
structure TeamMember where
  name : String
  role : String
  department : String
  deriving DecidableEq

/-- Embedding of `schemas.EmployeePerformance` (src/schemas.py, lines 86-92). -/
structure EmployeePerformance where
  name : String
  role : String
  department : String
  metrics : PerformanceMetrics
  ranking : ℕ
  performance_tier : String
  deriving DecidableEq

/-- Embedding of `schemas.PerformanceResponse` (src/schemas.py, lines 94-99). -/
structure PerformanceResponse where
  top_performers : List EmployeePerformance
  strong_performers : List EmployeePerformance
  other_performers : List EmployeePerformance
  total_employees : ℕ
  evaluation_period : String
  deriving DecidableEq

/-- Sort key of `employee_scores.sort(key=lambda x: x[2], reverse=True)`:
the third component, the overall scalar score. -/
def scoreOf (x : TeamMember × PerformanceMetrics × ℚ) : ℚ := x.2.2

/-- Embedding of `top_threshold = max(1, int(total_employees * 0.1))`.  For
list sizes representable without rounding anomalies (any realistic `n`),
Python's `int(n * 0.1)` on binary doubles equals `⌊n / 10⌋`. -/
def top_threshold (n : ℕ) : ℕ := max 1 (n / 10)

/-- Embedding of `strong_threshold = max(1, int(total_employees * 0.3))`;
Python's `int(n * 0.3)` equals `⌊3n / 10⌋` for any realistic `n`. -/
def strong_threshold (n : ℕ) : ℕ := max 1 (3 * n / 10)

/-- Tier label assigned at a given 1-based rank among `n` members
(src/routers/performance.py, lines 279-281). -/
def tier_label (rank n : ℕ) : String :=
  if rank ≤ top_threshold n then "Top 10%"
  else if rank ≤ strong_threshold n then "Next 20%"
  else "Rest 70%"

/-- Descending stable sort of the scored members
(`employee_scores.sort(key=lambda x: x[2], reverse=True)`). -/
def rankedScores (es : List (TeamMember × PerformanceMetrics × ℚ)) :
    List (TeamMember × PerformanceMetrics × ℚ) :=
  sortDescBy scoreOf es

/-- The `EmployeePerformance` records built in rank order by
`for rank, (member, metrics, _) in enumerate(employee_scores, 1)`. -/
def allPerformances (es : List (TeamMember × PerformanceMetrics × ℚ)) :
    List EmployeePerformance :=
  (rankedScores es).enum.map fun p =>
    { name := p.2.1.name
      role := p.2.1.role
      department := p.2.1.department
      metrics := p.2.2.1
      ranking := p.1 + 1
      performance_tier := tier_label (p.1 + 1) es.length }

/-- Embedding of the response assembly of `get_employee_ratings`
(src/routers/performance.py, lines 262-291): the loop appends each record to
exactly one of the three tier lists according to its rank, which (ranks being
produced in increasing order) is the same as filtering the rank-ordered record
list by the `if rank <= top_threshold / elif rank <= strong_threshold / else`
conditions. -/
def employeeRatingsResponse (label : String)
    (es : List (TeamMember × PerformanceMetrics × ℚ)) : PerformanceResponse :=
  let N := es.length
  let perfs := allPerformances es
  { top_performers := perfs.filter fun p => decide (p.ranking ≤ top_threshold N)
    strong_performers := perfs.filter fun p =>
      decide (¬ p.ranking ≤ top_threshold N ∧ p.ranking ≤ strong_threshold N)
    other_performers := perfs.filter fun p =>
      decide (¬ p.ranking ≤ top_threshold N ∧ ¬ p.ranking ≤ strong_threshold N)
    total_employees := N
    evaluation_period := label }

theorem length_rankedScores (es : List (TeamMember × PerformanceMetrics × ℚ)) :
    (rankedScores es).length = es.length :=
  length_sortDescBy scoreOf es

theorem perf_rankings (es : List (TeamMember × PerformanceMetrics × ℚ)) :
    (allPerformances es).map EmployeePerformance.ranking = List.range' 1 es.length := by
  unfold allPerformances
  rw [List.map_map]
  have h1 : (EmployeePerformance.ranking ∘ fun p :
      ℕ × (TeamMember × PerformanceMetrics × ℚ) =>
      ({ name := p.2.1.name, role := p.2.1.role, department := p.2.1.department,
         metrics := p.2.2.1, ranking := p.1 + 1,
         performance_tier := tier_label (p.1 + 1) es.length } : EmployeePerformance)) =
      (fun n => n + 1) ∘ Prod.fst := rfl
  rw [h1, ← List.map_map, List.enum_map_fst, length_rankedScores,
    List.range'_eq_map_range]
  simp [Nat.add_comm]

theorem map_ranking_filter (P : ℕ → Bool) (es : List (TeamMember × PerformanceMetrics × ℚ)) :
    ((allPerformances es).filter (fun p => P p.ranking)).map EmployeePerformance.ranking
      = (List.range' 1 es.length).filter P := by
  rw [← perf_rankings es, List.filter_map]
  rfl

theorem range'_one_split {T N : ℕ} (h : T ≤ N) :
    List.range' 1 N = List.range' 1 T ++ List.range' (T + 1) (N - T) := by
  have hca := List.range'_append 1 T (N - T) 1
  simp only [Nat.one_mul] at hca
  rw [Nat.sub_add_cancel h] at hca
  rw [← hca, Nat.add_comm 1 T]

theorem filter_range'_le {N T : ℕ} (h : T ≤ N) :
    (List.range' 1 N).filter (fun k => decide (k ≤ T)) = List.range' 1 T := by
  rw [range'_one_split h, List.filter_append]
  have h1 : (List.range' 1 T).filter (fun k => decide (k ≤ T)) = List.range' 1 T :=
    List.filter_eq_self.mpr fun a ha => by
      rcases List.mem_range'_1.mp ha with ⟨_, hlt⟩
      simp; omega
  have h2 : (List.range' (T + 1) (N - T)).filter (fun k => decide (k ≤ T)) = [] :=
    List.filter_eq_nil_iff.mpr fun a ha => by
      rcases List.mem_range'_1.mp ha with ⟨hge, _⟩
      simp; omega
  rw [h1, h2, List.append_nil]

theorem filter_range'_mid {N T S : ℕ} (hTS : T ≤ S) (hSN : S ≤ N) :
    (List.range' 1 N).filter (fun k => decide (¬ k ≤ T ∧ k ≤ S))
      = List.range' (T + 1) (S - T) := by
  rw [range'_one_split hSN, range'_one_split hTS, List.filter_append, List.filter_append]
  have h1 : (List.range' 1 T).filter (fun k => decide (¬ k ≤ T ∧ k ≤ S)) = [] :=
    List.filter_eq_nil_iff.mpr fun a ha => by
      rcases List.mem_range'_1.mp ha with ⟨_, hlt⟩
      simp; omega
  have h2 : (List.range' (T + 1) (S - T)).filter (fun k => decide (¬ k ≤ T ∧ k ≤ S))
      = List.range' (T + 1) (S - T) :=
    List.filter_eq_self.mpr fun a ha => by
      rcases List.mem_range'_1.mp ha with ⟨hge, hlt⟩
      simp; omega
  have h3 : (List.range' (S + 1) (N - S)).filter (fun k => decide (¬ k ≤ T ∧ k ≤ S)) = [] :=
    List.filter_eq_nil_iff.mpr fun a ha => by
      rcases List.mem_range'_1.mp ha with ⟨hge, _⟩
      simp; omega
  rw [h1, h2, h3, List.append_nil, List.nil_append]

theorem filter_range'_rest {N T S : ℕ} (hTS : T ≤ S) (hSN : S ≤ N) :
    (List.range' 1 N).filter (fun k => decide (¬ k ≤ T ∧ ¬ k ≤ S))
      = List.range' (S + 1) (N - S) := by
  rw [range'_one_split hSN, List.filter_append]
  have h1 : (List.range' 1 S).filter (fun k => decide (¬ k ≤ T ∧ ¬ k ≤ S)) = [] :=
    List.filter_eq_nil_iff.mpr fun a ha => by
      rcases List.mem_range'_1.mp ha with ⟨_, hlt⟩
      simp; omega
  have h2 : (List.range' (S + 1) (N - S)).filter (fun k => decide (¬ k ≤ T ∧ ¬ k ≤ S))
      = List.range' (S + 1) (N - S) :=
    List.filter_eq_self.mpr fun a ha => by
      rcases List.mem_range'_1.mp ha with ⟨hge, _⟩
      simp; omega
  rw [h1, h2, List.nil_append]

/-- C2: for `N ≥ 1` scored members the thresholds are
`topThreshold = max(1, ⌊0.10·N⌋)` and `strongThreshold = max(1, ⌊0.30·N⌋)`;
the three returned lists carry exactly the contiguous rank ranges
`1..topThreshold`, `topThreshold+1..strongThreshold`, `strongThreshold+1..N`
(so they partition all `N` members and `|top| + |strong| + |other| = N`), and
each record's tier label is `Top 10%`/`Next 20%`/`Rest 70%` exactly according
to whether its rank is `≤ topThreshold`, in between, or above. -/
theorem tier_partition (label : String)
    (es : List (TeamMember × PerformanceMetrics × ℚ)) (hne : es ≠ []) :
    (employeeRatingsResponse label es).total_employees = es.length ∧
    top_threshold es.length = max 1 (es.length / 10) ∧
    strong_threshold es.length = max 1 (3 * es.length / 10) ∧
    (employeeRatingsResponse label es).top_performers.length
      + (employeeRatingsResponse label es).strong_performers.length
      + (employeeRatingsResponse label es).other_performers.length = es.length ∧
    (employeeRatingsResponse label es).top_performers.map EmployeePerformance.ranking
      = List.range' 1 (top_threshold es.length) ∧
    (employeeRatingsResponse label es).strong_performers.map EmployeePerformance.ranking
      = List.range' (top_threshold es.length + 1)
          (strong_threshold es.length - top_threshold es.length) ∧
    (employeeRatingsResponse label es).other_performers.map EmployeePerformance.ranking
      = List.range' (strong_threshold es.length + 1)
          (es.length - strong_threshold es.length) ∧
    (∀ p ∈ allPerformances es, p.performance_tier =
      if p.ranking ≤ top_threshold es.length then "Top 10%"
      else if p.ranking ≤ strong_threshold es.length then "Next 20%"
      else "Rest 70%") := by
  have hN : 1 ≤ es.length := List.length_pos.mpr hne
  have hTS : top_threshold es.length ≤ strong_threshold es.length := by
    unfold top_threshold strong_threshold; omega
  have hSN : strong_threshold es.length ≤ es.length := by
    unfold strong_threshold; omega
  have hTN : top_threshold es.length ≤ es.length := hTS.trans hSN
  have htop : (employeeRatingsResponse label es).top_performers.map
      EmployeePerformance.ranking = List.range' 1 (top_threshold es.length) := by
    have h := map_ranking_filter (fun k => decide (k ≤ top_threshold es.length)) es
    rw [filter_range'_le hTN] at h
    exact h
  have hstrong : (employeeRatingsResponse label es).strong_performers.map
      EmployeePerformance.ranking = List.range' (top_threshold es.length + 1)
        (strong_threshold es.length - top_threshold es.length) := by
    have h := map_ranking_filter
      (fun k => decide (¬ k ≤ top_threshold es.length ∧ k ≤ strong_threshold es.length)) es
    rw [filter_range'_mid hTS hSN] at h
    exact h
  have hother : (employeeRatingsResponse label es).other_performers.map
      EmployeePerformance.ranking = List.range' (strong_threshold es.length + 1)
        (es.length - strong_threshold es.length) := by
    have h := map_ranking_filter
      (fun k => decide (¬ k ≤ top_threshold es.length ∧ ¬ k ≤ strong_threshold es.length)) es
    rw [filter_range'_rest hTS hSN] at h
    exact h
  refine ⟨rfl, rfl, rfl, ?_, htop, hstrong, hother, ?_⟩
  · have l1 := congrArg List.length htop
    have l2 := congrArg List.length hstrong
    have l3 := congrArg List.length hother
    simp only [List.length_map, List.length_range'] at l1 l2 l3
    omega
  · intro p hp
    rcases List.mem_map.mp hp with ⟨q, _, rfl⟩
    rfl

/-- Concrete input for the `N = 10` tier-threshold scenario: ten members with
equal scores. -/
def ratingInput10 : List (TeamMember × PerformanceMetrics × ℚ) :=
  List.replicate 10
    (⟨"m", "r", "d"⟩, ⟨0, 0, 0, 0, 0, 0, 0, 0, 0, 0, 0, 0, 0, 0, 0⟩, 0)

/-- C2 witness: with 10 members, `topThreshold = 1`, `strongThreshold = 3`;
rank 1 is in the top list, ranks 2–3 in the strong list, ranks 4–10 in the
rest list. -/
theorem tier_partition_witness :
    top_threshold 10 = 1 ∧ strong_threshold 10 = 3 ∧
    (employeeRatingsResponse "Last 30 days" ratingInput10).top_performers.map
      EmployeePerformance.ranking = [1] ∧
    (employeeRatingsResponse "Last 30 days" ratingInput10).strong_performers.map
      EmployeePerformance.ranking = [2, 3] ∧
    (employeeRatingsResponse "Last 30 days" ratingInput10).other_performers.map
      EmployeePerformance.ranking = [4, 5, 6, 7, 8, 9, 10] := by
  obtain ⟨-, -, -, -, h1, h2, h3, -⟩ :=
    tier_partition "Last 30 days" ratingInput10 (by simp [ratingInput10])
  refine ⟨by decide, by decide, ?_, ?_, ?_⟩
  · rw [h1]; rfl
  · rw [h2]; rfl
  · rw [h3]; rfl

/-- C7: the ranking sort is a stable descending sort: the ranked output is
pairwise descending in score, and for every score value `q` the members of
score `q` appear in the ranked output in exactly their original input order. -/
theorem ranking_stable (es : List (TeamMember × PerformanceMetrics × ℚ)) (q : ℚ) :
    (rankedScores es).Pairwise (fun a b => scoreOf b ≤ scoreOf a) ∧
    (rankedScores es).filter (fun x => decide (scoreOf x = q)) =
      es.filter (fun x => decide (scoreOf x = q)) :=
  ⟨sortDescBy_pairwise scoreOf es, filter_sortDescBy scoreOf q es⟩

/-! ### Endpoint error paths

Both `get_employee_ratings` and `get_productivity_trends` validate their
period/time-range token inside a `try:` block whose `except Exception as e:`
clause re-raises `HTTPException(status_code=500, detail=str(e))`.  FastAPI's
`HTTPException` subclasses `Exception`, so the endpoint's own
`HTTPException(400, …)` is caught by that clause and re-raised as a 500. -/

/-- Embedding of FastAPI's `HTTPException` as raised by the endpoints. -/
structure HTTPError where
  status_code : ℕ
  detail : String
  deriving DecidableEq

/-- Model of Starlette's `HTTPException.__str__`: `f"{status_code}: {detail}"`. -/
def httpErrorStr (e : HTTPError) : String :=
  toString e.status_code ++ ": " ++ e.detail

/-- Model of the `try: … except Exception as e: raise HTTPException(500, str(e))`
wrapper shared by the endpoints: any exception escaping the body — including an
`HTTPException` the body itself raised — is re-raised with status 500. -/
def tryExcept500 {α : Type} (body : Except HTTPError α) : Except HTTPError α :=
  match body with
  | .ok a => .ok a
  | .error e => .error ⟨500, httpErrorStr e⟩

/-- Lookup in the `period_days` dict of `get_employee_ratings`
(src/routers/performance.py, lines 223-228). -/
def period_days (period : String) : Option ℕ :=
  if period = "30d" then some 30
  else if period = "90d" then some 90
  else if period = "180d" then some 180
  else if period = "365d" then some 365
  else none

/-- Embedding of the `get_employee_ratings` endpoint (src/routers/performance.py,
lines 215-296), with the database-derived scored-member list supplied as input:
an unknown period token raises `HTTPException(400, "Invalid period")` inside the
`try:` block, which the blanket `except Exception` re-raises as a 500. -/
def get_employee_ratings (period : String)
    (es : List (TeamMember × PerformanceMetrics × ℚ)) :
    Except HTTPError PerformanceResponse :=
  tryExcept500 <|
    match period_days period with
    | none => .error ⟨400, "Invalid period"⟩
    | some d => .ok (employeeRatingsResponse ("Last " ++ toString d ++ " days") es)

/-- Row produced by the SQL aggregation in `get_productivity_trends`; the
averaged productivity may be SQL `NULL`. -/
structure TrendRow where
  date : String
  productivity : Option ℚ
  updates : ℕ
  department : String

/-- Formatted per-day trend result. -/
structure TrendPoint where
  date : String
  productivity : ℚ
  updates : ℕ
  department : String
  deriving DecidableEq

/-- The `timeRange` token table of `get_productivity_trends`
(src/routers/analytics.py, lines 60-69). -/
def timeRange_days (timeRange : String) : Option ℕ :=
  if timeRange = "week" then some 7
  else if timeRange = "month" then some 30
  else if timeRange = "quarter" then some 90
  else if timeRange = "year" then some 365
  else none

/-- Formatting of one aggregated row (src/routers/analytics.py, lines 100-111):
`float(result.productivity or 0)`. -/
def formatTrendRow (r : TrendRow) : TrendPoint :=
  { date := r.date
    productivity := r.productivity.getD 0
    updates := r.updates
    department := r.department }

/-- Embedding of the `get_productivity_trends` endpoint
(src/routers/analytics.py, lines 48-118), with the aggregated rows supplied as
input: an unknown time-range token raises `HTTPException(400, "Invalid time
range")` inside the `try:` block, re-raised as a 500 by the blanket handler. -/
def get_productivity_trends (timeRange : String) (rows : List TrendRow) :
    Except HTTPError (List TrendPoint) :=
  tryExcept500 <|
    match timeRange_days timeRange with
    | none => .error ⟨400, "Invalid time range"⟩
    | some _ => .ok (rows.map formatTrendRow)

/-- C3 (code-bug evidence): a request with an unrecognized period or time-range
token is answered with HTTP 500 (`"400: Invalid period"` / `"400: Invalid time
range"` as detail), not with the distinct client-input error 400, whatever data
the analysis would have used (no analysis is performed). -/
theorem invalid_token_yields_500 :
    (∀ es, get_employee_ratings "7d" es =
      Except.error ⟨500, "400: Invalid period"⟩) ∧
    (∀ rows, get_productivity_trends "day" rows =
      Except.error ⟨500, "400: Invalid time range"⟩) :=
  ⟨fun _ => rfl, fun _ => rfl⟩

/-! ### Metric Extractor (src/routers/performance.py, lines 19-184)

Unlike the analytics module, `calculate_metrics` decodes the stored structured
fields with a bare `json.loads` (and iterates/lowers the decoded values), so a
malformed field raises instead of being normalized to `[]`.  The embedding is
therefore in the `Except` monad; a Python exception is `Except.error`. -/

/-- Python substring membership `sub in hay` on strings. -/
def containsSub (hay sub : String) : Bool :=
  (List.range (hay.data.length + 1)).any fun i => sub.data.isPrefixOf (hay.data.drop i)

/-- Python `any(term in text for term in terms)`. -/
def containsAnyTerm (text : String) (terms : List String) : Bool :=
  terms.any fun t => containsSub text t

/-- Python `sum(1 for term in terms if term in text)`. -/
def countTerms (text : String) (terms : List String) : ℕ :=
  terms.countP fun t => containsSub text t

/-- Python `str.lower()` (ASCII text), character by character. -/
def strLower (s : String) : String := String.mk (s.data.map Char.toLower)

/-- Whitespace splitter on character lists. -/
def splitWsChars : List Char → List (List Char)
  | [] => [[]]
  | c :: cs =>
    if c.isWhitespace then [] :: splitWsChars cs
    else
      match splitWsChars cs with
      | [] => [[c]]
      | w :: ws => (c :: w) :: ws

/-- Python `str.split()` with no separator: split on whitespace runs, dropping
empty pieces. -/
def pysplit (s : String) : List String :=
  ((splitWsChars s.data).map String.mk).filter fun w => w != ""

/-- Arithmetic mean (`statistics.mean`); every call site guards against the
empty list. -/
def qmean (l : List ℚ) : ℚ := l.sum / l.length

/-- Stored value of one structured update column (SQLAlchemy `String` column):
SQL `NULL` (Python `None`) or a text value, carried together with the outcome
of `json.loads` on it (`none` models a `json.JSONDecodeError`). -/
inductive Field where
  | fnone
  | fstr (raw : String) (parsed : Option PyVal)

/-- Python truthiness of a stored column value (`if update.completed_tasks:`):
`None` and the empty string are falsy. -/
def Field.truthy : Field → Bool
  | .fnone => false
  | .fstr raw _ => raw != ""

/-- Python `json.loads` on a stored column value: decoding failure raises
`json.JSONDecodeError`; `json.loads(None)` raises `TypeError`. -/
def Field.loads : Field → Except String PyVal
  | .fnone => .error "TypeError"
  | .fstr _ none => .error "JSONDecodeError"
  | .fstr _ (some v) => .ok v

/-- Embedding of `models.Update` (src/models.py): timestamps are modelled at
date granularity as day ordinals. -/
structure Update where
  timestamp : ℕ
  update_text : String
  completed_tasks : Field
  project_progress : Field
  goals_status : Field
  blockers : Field
  next_week_plans : Field
  productivity_score : Option ℚ

/-- Python iteration over a decoded JSON value (`for task in tasks`,
`list.extend(tasks)`): lists yield their elements, strings yield their
characters as one-character strings, anything else raises `TypeError`. -/
def pyIter : PyVal → Except String (List PyVal)
  | .plist xs => .ok xs
  | .pstr s => .ok (s.data.map fun c => PyVal.pstr (String.singleton c))
  | _ => .error "TypeError"

/-- Python attribute access such as `task.lower()` on a decoded value: only
strings have string methods; anything else raises `AttributeError`. -/
def pyStr : PyVal → Except String String
  | .pstr s => .ok s
  | _ => .error "AttributeError"

/-- Complexity weight of one completed-task string
(src/routers/performance.py, lines 52-60). -/
def taskComplexity (task : String) : ℚ :=
  1 + (if containsAnyTerm (strLower task) ["architecture", "design", "implement", "optimize"]
        then 0.5 else 0)
    + (if containsAnyTerm (strLower task) ["complex", "challenging", "difficult"]
        then 0.3 else 0)
    + (if 10 < (pysplit task).length then 0.2 else 0)

/-- Per-update completed-tasks processing (src/routers/performance.py, lines
47-60): decode, extend the task list, and weight each task. -/
def updateTasks (u : Update) : Except String (List PyVal × ℚ) :=
  if u.completed_tasks.truthy then do
    let v ← u.completed_tasks.loads
    let tasks ← pyIter v
    let cxs ← tasks.mapM fun t => do
      let s ← pyStr t
      pure (taskComplexity s)
    pure (tasks, cxs.sum)
  else pure ([], 0)

/-- Per-update goals processing (src/routers/performance.py, lines 69-78):
counts of achieved goals, completed milestones and total milestones. -/
def updateGoals (u : Update) : Except String (ℕ × ℕ × ℕ) :=
  if u.goals_status.truthy then do
    let v ← u.goals_status.loads
    let goals ← pyIter v
    let ss ← goals.mapM pyStr
    let achieved := ss.countP fun g =>
      containsSub (strLower g) "complete" || containsSub (strLower g) "achieved"
    let msTotal := ss.countP fun g =>
      containsAnyTerm (strLower g) ["milestone", "major", "key", "critical"]
    let msDone := ss.countP fun g =>
      containsAnyTerm (strLower g) ["milestone", "major", "key", "critical"] &&
        (containsSub (strLower g) "complete" || containsSub (strLower g) "achieved")
    pure (achieved, msDone, msTotal)
  else pure (0, 0, 0)

/-- Python `"%" in p` for a decoded JSON value `p`: substring test on a string,
membership test on a list, `TypeError` otherwise. -/
def percentMember : PyVal → Except String Bool
  | .pstr s => .ok (containsSub s "%")
  | .plist xs => .ok (xs.any fun x =>
      match x with
      | .pstr s => s == "%"
      | _ => false)
  | _ => .error "TypeError"

/-- Per-update project processing (src/routers/performance.py, lines 85-94):
keep the projects containing a percent sign and accumulate the impact score. -/
def updateProjects (u : Update) : Except String (List PyVal × ℚ) :=
  if u.project_progress.truthy then do
    let v ← u.project_progress.loads
    let projects ← pyIter v
    let flags ← projects.mapM percentMember
    let withPct := (projects.zip flags).filterMap fun pf =>
      if pf.2 then some pf.1 else none
    let ss ← projects.mapM pyStr
    let impact : ℚ :=
      (ss.countP fun p =>
        containsAnyTerm (strLower p) ["critical", "key", "major", "strategic"]) * 0.3
      + (ss.countP fun p =>
        containsAnyTerm (strLower p) ["customer", "revenue", "cost-saving"]) * 0.2
    pure (withPct, impact)
  else pure ([], 0)

/-- Python `str.isdigit`: nonempty and all digits. -/
def strIsDigits (s : String) : Bool := s != "" && s.data.all Char.isDigit

/-- Decimal value of a digit-character list (`int` applied to the joined
digits). -/
def digitsVal (ds : List Char) : ℕ :=
  ds.foldl (fun acc c => acc * 10 + (c.toNat - 48)) 0

/-- Embedding of `int(''.join(filter(str.isdigit, project)))` guarded by
`except ValueError: continue` (src/routers/performance.py, lines 100-106):
`none` models the skipped no-digit case. -/
def rateOf : PyVal → Except String (Option ℕ)
  | .pstr s =>
    let ds := s.data.filter Char.isDigit
    .ok (if ds.isEmpty then none else some (digitsVal ds))
  | .plist xs => do
    let ss ← xs.mapM pyStr
    let ds := ((ss.filter strIsDigits).map String.data).flatten
    pure (if ds.isEmpty then none else some (digitsVal ds))
  | _ => .error "TypeError"

/-- Per-update blocker quality-issue count (src/routers/performance.py,
lines 154-157). -/
def updateQualityIssues (u : Update) : Except String ℕ :=
  if u.blockers.truthy then do
    let v ← u.blockers.loads
    let bs ← pyIter v
    let ss ← bs.mapM pyStr
    pure (ss.countP fun b =>
      containsSub (strLower b) "bug" || containsSub (strLower b) "issue" ||
        containsSub (strLower b) "error")
  else pure 0

/-- Embedding of `calculate_metrics` (src/routers/performance.py, lines
19-184).  `now` models `datetime.now()` as a day ordinal.  An empty update
list yields the all-zero record; otherwise the fifteen metrics are computed,
any Python exception raised while decoding a stored field propagating as
`Except.error`. -/
def calculate_metrics (updates : List Update) (start_date now : ℕ) :
    Except String PerformanceMetrics :=
  if updates.isEmpty then
    .ok ⟨0, 0, 0, 0, 0, 0, 0, 0, 0, 0, 0, 0, 0, 0, 0⟩
  else do
    let productivity_scores := updates.filterMap Update.productivity_score
    let avg_productivity := if productivity_scores.isEmpty then 0
      else qmean productivity_scores
    let tasksRes ← updates.mapM updateTasks
    let completed_tasks_list := (tasksRes.map Prod.fst).flatten
    let total_complexity := (tasksRes.map Prod.snd).sum
    let completed_tasks := completed_tasks_list.length
    let avg_task_complexity : ℚ :=
      if 0 < completed_tasks then total_complexity / completed_tasks else 0
    let goalsRes ← updates.mapM updateGoals
    let goals_achieved := (goalsRes.map fun g => g.1).sum
    let milestones_completed := (goalsRes.map fun g => g.2.1).sum
    let milestones_total := (goalsRes.map fun g => g.2.2).sum
    let milestone_completion_rate : ℚ :=
      if 0 < milestones_total then (milestones_completed : ℚ) / milestones_total else 0
    let projRes ← updates.mapM updateProjects
    let all_projects := (projRes.map Prod.fst).flatten
    let impact_score : ℚ := min 1 ((projRes.map Prod.snd).sum)
    let rates ← all_projects.mapM rateOf
    let completion_rates := (rates.filterMap id).filter fun r => decide (r ≤ 100)
    let avg_completion_rate : ℚ := if completion_rates.isEmpty then 0
      else qmean (completion_rates.map fun n => (n : ℚ)) / 100
    let days_in_period : ℤ := (now : ℤ) - (start_date : ℤ)
    let weeks_in_period : ℚ := max 1 ((days_in_period : ℚ) / 7)
    let update_frequency : ℚ := (updates.length : ℚ) / weeks_in_period
    let update_dates := sortAscBy id (updates.map Update.timestamp)
    let gaps := (update_dates.zip update_dates.tail).map fun p => ((p.2 : ℤ) - (p.1 : ℤ))
    let consistency_score : ℚ :=
      max 0 (min 1 (1 - (if gaps.isEmpty then 0 else qmean (gaps.map fun g => (g : ℚ)) / 7)))
    let collaboration_mentions := (updates.map fun u =>
      countTerms (strLower u.update_text)
        ["collaborated", "worked with", "helped", "supported", "paired"]).sum
    let knowledge_sharing_count := (updates.map fun u =>
      countTerms (strLower u.update_text)
        ["documented", "trained", "presented", "shared", "mentored"]).sum
    let team_help_count := (updates.map fun u =>
      countTerms (strLower u.update_text)
        ["helped team", "supported colleague", "assisted", "mentored"]).sum
    let collaboration_score : ℚ :=
      min 1 ((collaboration_mentions : ℚ) / (updates.length * 2 : ℕ))
    let innovation_mentions := updates.countP fun u =>
      containsAnyTerm (strLower u.update_text)
        ["new solution", "innovative", "improved", "optimized", "automated"]
    let innovation_score : ℚ := min 1 ((innovation_mentions : ℚ) / updates.length)
    let qRes ← updates.mapM updateQualityIssues
    let quality_issues := qRes.sum
    let quality_score : ℚ := 1 - min 1 ((quality_issues : ℚ) /
      (if 0 < completed_tasks then (completed_tasks : ℚ) else 1))
    let resolved_blockers := updates.countP fun u =>
      containsAnyTerm (strLower u.update_text) ["resolved", "fixed", "solved", "addressed"]
    pure ⟨avg_productivity, completed_tasks, goals_achieved, avg_completion_rate,
      update_frequency, collaboration_score, impact_score, consistency_score,
      innovation_score, quality_score, resolved_blockers, avg_task_complexity,
      milestone_completion_rate, knowledge_sharing_count, team_help_count⟩

/-- Concrete update whose stored `completed_tasks` column holds text that is
not valid JSON. -/
def badUpdate : Update :=
  { timestamp := 0
    update_text := "worked"
    completed_tasks := .fstr "not json" none
    project_progress := .fnone
    goals_status := .fnone
    blockers := .fnone
    next_week_plans := .fnone
    productivity_score := some (4 / 5) }

/-- C4 counterexample: the Metric Extractor does not recover from a malformed
structured field — on a single update whose stored `completed_tasks` is
unparseable JSON, `calculate_metrics` raises `json.JSONDecodeError`, so the
ratings request fails instead of treating the field as empty. -/
theorem metric_extractor_raises_on_malformed :
    calculate_metrics [badUpdate] 0 30 = .error "JSONDecodeError" := by
  rfl

theorem mapM_except_error {α β : Type} (f : α → Except String β) (l : List α)
    (h : ∃ a ∈ l, ∃ e, f a = .error e) : ∃ e, l.mapM f = .error e := by
  induction l with
  | nil => rcases h with ⟨a, ha, _⟩; cases ha
  | cons b bs ih =>
    rcases h with ⟨a, ha, e, hfa⟩
    rw [List.mapM_cons]
    rcases List.mem_cons.mp ha with rfl | ha
    · exact ⟨e, by rw [hfa]; rfl⟩
    · cases hfb : f b with
      | error e' => exact ⟨e', rfl⟩
      | ok x =>
        rcases ih ⟨a, ha, e, hfa⟩ with ⟨e', he'⟩
        exact ⟨e', by rw [he']; rfl⟩

/-- C4 (amended): the Field Normalizer `parse_json_array`, used by the
analytics-side analyses, recovers from a malformed stored field by returning
the empty sequence without raising; the Metric Extractor `calculate_metrics`,
by contrast, decodes stored fields with a bare `json.loads`, so any update
whose (truthy) stored `completed_tasks` text fails to decode makes the whole
metric computation raise — the request becomes an error instead of treating
the field as empty. -/
theorem malformed_field_handling :
    (∀ raw, parse_json_array (PyArg.astr raw none) = []) ∧
    (∀ (updates : List Update) (start_date now : ℕ) (u : Update) (raw : String),
      u ∈ updates → u.completed_tasks = Field.fstr raw none → raw ≠ "" →
      ∃ e, calculate_metrics updates start_date now = .error e) := by
  refine ⟨fun _ => rfl, ?_⟩
  intro updates start_date now u raw hu hfield hraw
  have hUerr : updateTasks u = .error "JSONDecodeError" := by
    unfold updateTasks
    rw [hfield]
    have htruthy : Field.truthy (Field.fstr raw none) = true := by
      simp [Field.truthy, hraw]
    rw [if_pos htruthy]
    rfl
  have hempty : updates.isEmpty = false := by
    cases updates with
    | nil => cases hu
    | cons x xs => rfl
  rcases mapM_except_error updateTasks updates ⟨u, hu, _, hUerr⟩ with ⟨e, he⟩
  refine ⟨e, ?_⟩
  unfold calculate_metrics
  rw [hempty]
  show (updates.mapM updateTasks >>= _) = _
  rw [he]
  rfl

/-- C4 witness: the amended statement applied at the concrete one-update list
with unparseable stored `completed_tasks`. -/
theorem malformed_field_handling_witness :
    ∃ e, calculate_metrics [badUpdate] 0 30 = .error e :=
  malformed_field_handling.2 [badUpdate] 0 30 badUpdate "not json"
    (List.mem_singleton.mpr rfl) rfl (by decide)

/-! ### Semantic Stall Detector (src/routers/analytics.py, lines 347-500)

One member's updates, already sorted by timestamp (lines 367-372 and 413-414),
each carrying the outcome of the embedding-service call for its combined text
(`none` models a failed `client.embeddings.create` call, whose `except` clause
logs and `continue`s, so the failed update contributes no embedding).  The loop
`for i in range(1, len(update_embeddings))` compares `update_embeddings[i-1]`
with `update_embeddings[i]` but draws dates, ids and productivity scores from
`updates[i-1]`/`updates[i]` — positions in the full update list. -/

/-- One update as grouped for the similarity analysis (lines 395-400): id,
timestamp (reported as the date), `productivity_score or 0.0`, and the
embedding-service outcome for its combined text. -/
structure SimUpdate where
  uid : ℕ
  timestamp : ℕ
  productivity_score : ℚ
  emb : Option (List ℝ)

/-- Fallback record for list indexing (Python would raise `IndexError`; the
loop's indices are always in range). -/
def dummyUpdate : SimUpdate := ⟨0, 0, 0, none⟩

/-- Embedding collection loop (lines 422-435): a failed embedding call is
skipped (`continue`), so only the successful vectors are appended, in order. -/
def updateEmbeddings (us : List SimUpdate) : List (List ℝ) :=
  us.filterMap SimUpdate.emb

/-- Dot product `np.dot` of two equal-length vectors. -/
def dotList (v w : List ℝ) : ℝ := (List.zipWith (· * ·) v w).sum

/-- Normalization `embedding / np.linalg.norm(embedding)` (lines 447-448). -/
noncomputable def normalizeVec (v : List ℝ) : List ℝ :=
  v.map fun x => x / Real.sqrt (dotList v v)

/-- Cosine similarity as computed in lines 443-451: normalize both embeddings,
then take their dot product. -/
noncomputable def cosineSimilarity (e1 e2 : List ℝ) : ℝ :=
  dotList (normalizeVec e1) (normalizeVec e2)

/-- A recorded stalled period (lines 466-472). -/
structure StalledPeriod where
  start_date : ℕ
  end_date : ℕ
  similarity : ℝ
  update1_id : ℕ
  update2_id : ℕ

open Classical in
/-- Embedding of the stalled-period loop (lines 441-472): for each
`i in range(1, len(update_embeddings))`, if the cosine similarity of embeddings
`i-1` and `i` reaches the threshold and the productivity score at update
position `i` did not exceed that at position `i-1`, a StalledPeriod is recorded
with the dates and ids at update positions `i-1` and `i`. -/
noncomputable def stalledPeriodsFor (threshold : ℝ) (us : List SimUpdate) :
    List StalledPeriod :=
  (List.range' 1 ((updateEmbeddings us).length - 1)).filterMap fun i =>
    if threshold ≤ cosineSimilarity ((updateEmbeddings us).getD (i - 1) [])
          ((updateEmbeddings us).getD i []) ∧
        (us.getD i dummyUpdate).productivity_score ≤
          (us.getD (i - 1) dummyUpdate).productivity_score
    then some
      { start_date := (us.getD (i - 1) dummyUpdate).timestamp
        end_date := (us.getD i dummyUpdate).timestamp
        similarity := cosineSimilarity ((updateEmbeddings us).getD (i - 1) [])
          ((updateEmbeddings us).getD i [])
        update1_id := (us.getD (i - 1) dummyUpdate).uid
        update2_id := (us.getD i dummyUpdate).uid }
    else none

/-- The stall condition of the claim, for the pair at positions `i-1`, `i` of a
fully embedded update list: similarity of the two updates' own vectors reaches
the threshold, and the later productivity score is at most the earlier one. -/
def stallCond (threshold : ℝ) (us : List SimUpdate) (i : ℕ) : Prop :=
  threshold ≤ cosineSimilarity (((us.getD (i - 1) dummyUpdate).emb).getD [])
      (((us.getD i dummyUpdate).emb).getD []) ∧
    (us.getD i dummyUpdate).productivity_score ≤
      (us.getD (i - 1) dummyUpdate).productivity_score

/-- The StalledPeriod record for the pair at positions `i-1`, `i`, built from
those two updates' own dates, ids and vectors. -/
noncomputable def stallEntry (us : List SimUpdate) (i : ℕ) : StalledPeriod :=
  { start_date := (us.getD (i - 1) dummyUpdate).timestamp
    end_date := (us.getD i dummyUpdate).timestamp
    similarity := cosineSimilarity (((us.getD (i - 1) dummyUpdate).emb).getD [])
      (((us.getD i dummyUpdate).emb).getD [])
    update1_id := (us.getD (i - 1) dummyUpdate).uid
    update2_id := (us.getD i dummyUpdate).uid }

open Classical in
/-- The loop body at index `i`, expressed over the updates' own embeddings
(which coincides with the source's `update_embeddings[·]` when every embedding
call succeeded). -/
noncomputable def stallStep (threshold : ℝ) (us : List SimUpdate) (i : ℕ) :
    Option StalledPeriod :=
  if threshold ≤ cosineSimilarity (((us.getD (i - 1) dummyUpdate).emb).getD [])
        (((us.getD i dummyUpdate).emb).getD []) ∧
      (us.getD i dummyUpdate).productivity_score ≤
        (us.getD (i - 1) dummyUpdate).productivity_score
  then some (stallEntry us i) else none

theorem updateEmbeddings_length (us : List SimUpdate)
    (h : ∀ u ∈ us, u.emb.isSome) : (updateEmbeddings us).length = us.length := by
  induction us with
  | nil => rfl
  | cons u t ih =>
    obtain ⟨v, hv⟩ := Option.isSome_iff_exists.mp (h u (List.mem_cons_self u t))
    unfold updateEmbeddings at *
    rw [List.filterMap_cons, hv]
    simp only [List.length_cons]
    rw [ih fun x hx => h x (List.mem_cons_of_mem u hx)]

theorem updateEmbeddings_getD (us : List SimUpdate)
    (h : ∀ u ∈ us, u.emb.isSome) (j : ℕ) (hj : j < us.length) :
    (updateEmbeddings us).getD j [] = ((us.getD j dummyUpdate).emb).getD [] := by
  induction us generalizing j with
  | nil => exact absurd hj (Nat.not_lt_zero j)
  | cons u t ih =>
    obtain ⟨v, hv⟩ := Option.isSome_iff_exists.mp (h u (List.mem_cons_self u t))
    unfold updateEmbeddings at *
    rw [List.filterMap_cons, hv]
    cases j with
    | zero =>
      rw [List.getD_cons_zero, List.getD_cons_zero, hv]
      rfl
    | succ k =>
      rw [List.getD_cons_succ, List.getD_cons_succ]
      exact ih (fun x hx => h x (List.mem_cons_of_mem u hx)) k
        (Nat.lt_of_succ_lt_succ hj)

theorem uid_index_inj (us : List SimUpdate)
    (hids : (us.map SimUpdate.uid).Nodup) {j k : ℕ}
    (hj : j < us.length) (hk : k < us.length)
    (h : (us.getD j dummyUpdate).uid = (us.getD k dummyUpdate).uid) : j = k := by
  rw [List.getD_eq_getElem us dummyUpdate hj, List.getD_eq_getElem us dummyUpdate hk] at h
  have hj' : j < (us.map SimUpdate.uid).length := by simpa using hj
  have hk' : k < (us.map SimUpdate.uid).length := by simpa using hk
  have hmap : (us.map SimUpdate.uid)[j] = (us.map SimUpdate.uid)[k] := by
    rw [List.getElem_map, List.getElem_map]
    exact h
  exact hids.getElem_inj_iff.mp hmap

theorem filter_filterMap_unique {α : Type} (l : List ℕ) (hl : l.Nodup) (i : ℕ)
    (hi : i ∈ l) (G : ℕ → Option α) (P : α → Bool)
    (hj : ∀ j ∈ l, j ≠ i → ∀ s, G j = some s → P s = false)
    (hii : ∀ s, G i = some s → P s = true) :
    (l.filterMap G).filter P = (G i).toList := by
  induction l with
  | nil => cases hi
  | cons a t ih =>
    rw [List.filterMap_cons]
    by_cases hai : a = i
    · subst hai
      have ht : (t.filterMap G).filter P = [] := by
        rw [List.filter_eq_nil_iff]
        intro s hs
        rcases List.mem_filterMap.mp hs with ⟨j, hjt, hGj⟩
        have hja : j ≠ a := fun h => (List.nodup_cons.mp hl).1 (h ▸ hjt)
        simp [hj j (List.mem_cons_of_mem a hjt) hja s hGj]
      cases hGa : G a with
      | none => rw [ht]; rfl
      | some s => rw [List.filter_cons_of_pos (hii s hGa), ht]; rfl
    · have hit : i ∈ t := by
        rcases List.mem_cons.mp hi with heq | hit
        · exact absurd heq.symm hai
        · exact hit
      have ih' := ih (List.nodup_cons.mp hl).2 hit
        fun j hjm hne s hs => hj j (List.mem_cons_of_mem a hjm) hne s hs
      cases hGa : G a with
      | none => exact ih'
      | some s =>
        rw [List.filter_cons_of_neg
          (by simp [hj a (List.mem_cons_self a t) hai s hGa])]
        exact ih'

/-- C1: for a member whose updates (timestamp-sorted, with distinct ids) all
obtained an embedding vector, and for every consecutive position pair
`(i-1, i)`, exactly one StalledPeriod carrying that pair's ids, dates and
similarity is recorded when cosine similarity reaches the threshold and the
later productivity score is at most the earlier one, and none is recorded
otherwise. -/
theorem stall_pair_characterization (threshold : ℝ) (us : List SimUpdate)
    (hemb : ∀ u ∈ us, u.emb.isSome)
    (hids : (us.map SimUpdate.uid).Nodup)
    (i : ℕ) (h1 : 1 ≤ i) (h2 : i < us.length) :
    (stallCond threshold us i →
      (stalledPeriodsFor threshold us).filter (fun s =>
        decide (s.update1_id = (us.getD (i - 1) dummyUpdate).uid ∧
          s.update2_id = (us.getD i dummyUpdate).uid)) = [stallEntry us i]) ∧
    (¬ stallCond threshold us i →
      (stalledPeriodsFor threshold us).filter (fun s =>
        decide (s.update1_id = (us.getD (i - 1) dummyUpdate).uid ∧
          s.update2_id = (us.getD i dummyUpdate).uid)) = []) := by
  have hform : stalledPeriodsFor threshold us
      = (List.range' 1 (us.length - 1)).filterMap (stallStep threshold us) := by
    unfold stalledPeriodsFor stallStep stallEntry
    rw [updateEmbeddings_length us hemb]
    refine List.filterMap_congr ?_
    intro j hjm
    rcases List.mem_range'_1.mp hjm with ⟨hj1, hj2⟩
    have hjlt : j < us.length := by omega
    have hj0 : j - 1 < us.length := by omega
    rw [updateEmbeddings_getD us hemb (j - 1) hj0, updateEmbeddings_getD us hemb j hjlt]
  have hmem : i ∈ List.range' 1 (us.length - 1) :=
    List.mem_range'_1.mpr ⟨h1, by omega⟩
  have hnd : (List.range' 1 (us.length - 1)).Nodup := List.nodup_range' _ _
  have hjfact : ∀ j ∈ List.range' 1 (us.length - 1), j ≠ i →
      ∀ s, stallStep threshold us j = some s →
      (fun s : StalledPeriod =>
        decide (s.update1_id = (us.getD (i - 1) dummyUpdate).uid ∧
          s.update2_id = (us.getD i dummyUpdate).uid)) s = false := by
    intro j hjm hne s hGj
    have hjlt : j < us.length := by
      rcases List.mem_range'_1.mp hjm with ⟨hj1, hj2⟩
      omega
    unfold stallStep at hGj
    split at hGj
    · obtain rfl : stallEntry us j = s := Option.some_inj.mp hGj
      have hne2 : (us.getD j dummyUpdate).uid ≠ (us.getD i dummyUpdate).uid :=
        fun h => hne (uid_index_inj us hids hjlt h2 h)
      exact decide_eq_false fun h => hne2 h.2
    · cases hGj
  constructor
  · intro hc
    have hGi : stallStep threshold us i = some (stallEntry us i) := by
      unfold stallStep
      exact if_pos hc
    have hiifact : ∀ s, stallStep threshold us i = some s →
        (fun s : StalledPeriod =>
          decide (s.update1_id = (us.getD (i - 1) dummyUpdate).uid ∧
            s.update2_id = (us.getD i dummyUpdate).uid)) s = true := by
      intro s hs
      rw [hGi] at hs
      obtain rfl : stallEntry us i = s := Option.some_inj.mp hs
      exact decide_eq_true ⟨rfl, rfl⟩
    rw [hform, filter_filterMap_unique (List.range' 1 (us.length - 1)) hnd i hmem
      (stallStep threshold us) _ hjfact hiifact, hGi]
    rfl
  · intro hc
    have hGi : stallStep threshold us i = none := by
      unfold stallStep
      exact if_neg hc
    have hiifact : ∀ s, stallStep threshold us i = some s →
        (fun s : StalledPeriod =>
          decide (s.update1_id = (us.getD (i - 1) dummyUpdate).uid ∧
            s.update2_id = (us.getD i dummyUpdate).uid)) s = true := by
      intro s hs
      rw [hGi] at hs
      cases hs
    rw [hform, filter_filterMap_unique (List.range' 1 (us.length - 1)) hnd i hmem
      (stallStep threshold us) _ hjfact hiifact, hGi]
    rfl

theorem cosineSimilarity_single_one :
    cosineSimilarity [(1 : ℝ)] [(1 : ℝ)] = 1 := by
  simp [cosineSimilarity, normalizeVec, dotList, Real.sqrt_one]

/-- Two identical-text updates (equal embedding vectors), productivity 0.8
then 0.7. -/
def stallUpdates : List SimUpdate :=
  [⟨1, 0, 4 / 5, some [1]⟩, ⟨2, 1, 7 / 10, some [1]⟩]

/-- Two identical-text updates, productivity 0.8 then 0.9. -/
def noStallUpdates : List SimUpdate :=
  [⟨1, 0, 4 / 5, some [1]⟩, ⟨2, 1, 9 / 10, some [1]⟩]

/-- C1 witness: with threshold 0.85, two identical-text updates (similarity 1)
scoring 0.8 then 0.7 produce exactly one StalledPeriod for the pair, and
scoring 0.8 then 0.9 produce none. -/
theorem stall_pair_characterization_witness :
    (stalledPeriodsFor 0.85 stallUpdates).filter (fun s =>
        decide (s.update1_id = 1 ∧ s.update2_id = 2)) =
      [⟨0, 1, cosineSimilarity [(1 : ℝ)] [(1 : ℝ)], 1, 2⟩] ∧
    (stalledPeriodsFor 0.85 noStallUpdates).filter (fun s =>
        decide (s.update1_id = 1 ∧ s.update2_id = 2)) = [] := by
  have hemb1 : ∀ u ∈ stallUpdates, u.emb.isSome := by
    intro u hu
    cases hu with
    | head => rfl
    | tail _ hu =>
      cases hu with
      | head => rfl
      | tail _ hu => cases hu
  have hemb2 : ∀ u ∈ noStallUpdates, u.emb.isSome := by
    intro u hu
    cases hu with
    | head => rfl
    | tail _ hu =>
      cases hu with
      | head => rfl
      | tail _ hu => cases hu
  constructor
  · exact (stall_pair_characterization 0.85 stallUpdates hemb1 (by decide)
      1 le_rfl (by decide)).1
      ⟨by rw [show (((stallUpdates.getD 0 dummyUpdate).emb).getD []) = [(1:ℝ)] from rfl,
          show (((stallUpdates.getD 1 dummyUpdate).emb).getD []) = [(1:ℝ)] from rfl,
          cosineSimilarity_single_one]; norm_num,
        by show (7 / 10 : ℚ) ≤ 4 / 5; norm_num⟩
  · exact (stall_pair_characterization 0.85 noStallUpdates hemb2 (by decide)
      1 le_rfl (by decide)).2
      fun h => absurd h.2 (by show ¬ (9 / 10 : ℚ) ≤ 4 / 5; norm_num)

open Classical in
/-- Helper for C5: with exactly two surviving embeddings the loop runs once,
comparing them while reporting the metadata at update positions 0 and 1. -/
theorem stalledPeriodsFor_pair (threshold : ℝ) (us : List SimUpdate)
    (hl : (updateEmbeddings us).length = 2) :
    stalledPeriodsFor threshold us =
      if threshold ≤ cosineSimilarity ((updateEmbeddings us).getD 0 [])
            ((updateEmbeddings us).getD 1 []) ∧
          (us.getD 1 dummyUpdate).productivity_score ≤
            (us.getD 0 dummyUpdate).productivity_score
      then [{ start_date := (us.getD 0 dummyUpdate).timestamp
              end_date := (us.getD 1 dummyUpdate).timestamp
              similarity := cosineSimilarity ((updateEmbeddings us).getD 0 [])
                ((updateEmbeddings us).getD 1 [])
              update1_id := (us.getD 0 dummyUpdate).uid
              update2_id := (us.getD 1 dummyUpdate).uid }]
      else [] := by
  unfold stalledPeriodsFor
  rw [hl]
  show List.filterMap _ [1] = _
  rw [List.filterMap_cons, List.filterMap_nil]
  simp only [show (1 : ℕ) - 1 = 0 from rfl]
  split_ifs with hc
  · rfl
  · rfl

/-- Member input for the single-embedding-failure scenario: three updates with
ids 1, 2, 3, timestamps 10 < 20 < 30, productivity 0.8, 0.5, 0.9; the
embedding call fails for update 2 only. -/
def failUpdates : List SimUpdate :=
  [⟨1, 10, 4 / 5, some [1]⟩, ⟨2, 20, 1 / 2, none⟩, ⟨3, 30, 9 / 10, some [1]⟩]

/-- C5 (code-bug evidence): when the embedding call fails for the middle
update only, the loop compares the embeddings of updates 1 and 3 but reports
the pair as updates 1 and 2 — the skipped update — and compares update 2's
productivity (0.5 ≤ 0.8) instead of update 3's (0.9 > 0.8), recording a
StalledPeriod that the claim's alignment would not record.  The analysis still
completes and returns a value. -/
theorem embedding_failure_misalignment :
    stalledPeriodsFor 0.85 failUpdates =
      [⟨10, 20, cosineSimilarity [(1 : ℝ)] [(1 : ℝ)], 1, 2⟩] ∧
    (failUpdates.getD 1 dummyUpdate).emb = none ∧
    (failUpdates.getD 2 dummyUpdate).productivity_score = 9 / 10 ∧
    ¬ ((9 : ℚ) / 10 ≤ 4 / 5) := by
  refine ⟨?_, rfl, rfl, by norm_num⟩
  rw [stalledPeriodsFor_pair 0.85 failUpdates rfl]
  rw [if_pos ⟨by
      rw [show ((updateEmbeddings failUpdates).getD 0 []) = [(1:ℝ)] from rfl,
        show ((updateEmbeddings failUpdates).getD 1 []) = [(1:ℝ)] from rfl,
        cosineSimilarity_single_one]
      norm_num,
    by show (1 / 2 : ℚ) ≤ 4 / 5; norm_num⟩]
  rfl

/-! ### Keyword Repetition Analyzer (src/main.py, lines 549-684)

The tokenizer is a parameter `kw`: the source uses NLTK tokenization when the
linguistic resources are available and the fallback tokenizer below otherwise;
the analysis structure is the same for both. -/

/-- The simple stop-word list of the fallback branch (src/main.py, lines
643-647). -/
def simple_stop_words : List String :=
  ["the", "a", "an", "and", "or", "but", "is", "are", "was", "were",
   "be", "been", "being", "to", "of", "for", "with", "that", "this",
   "these", "those", "it", "its", "in", "on", "at", "by", "from",
   "as", "have", "has", "had", "not", "no", "nor", "if", "else", "then",
   "when", "up", "down", "out", "over", "under", "again"]

/-- Text preprocessing (lines 628-630): lowercase, then
`re.sub(r'[^a-zA-Z\s]', '', ·)` — keep only letters and whitespace. -/
def preprocessText (text : String) : String :=
  String.mk ((strLower text).data.filter fun c => c.isAlpha || c.isWhitespace)

/-- The fallback tokenization branch (lines 639-648): `text.split()`, then drop
stop words and tokens of length ≤ 3. -/
def fallbackTokenize (text : String) : List String :=
  (pysplit (preprocessText text)).filter fun w =>
    decide (w ∉ simple_stop_words) && decide (3 < w.length)

/-- Significant keywords of one update (lines 650-654): tokens whose count in
the update is at least 2, as a set (deduplicated, first occurrences kept). -/
def significantKeywords (kw : String → List String) (text : String) : List String :=
  ((kw text).filter fun w => decide (2 ≤ (kw text).count w)).dedup

/-- The stream of per-pair repeated keywords (lines 656-663): for each
consecutive pair of texts, the significant keywords of the later update that
were also significant in the earlier one; each occurrence increments that
keyword's counter by one, so the final counter value of a keyword is its count
in this stream. -/
def repeatedStream (kw : String → List String) (texts : List String) : List String :=
  ((texts.zip texts.tail).map fun p =>
    (significantKeywords kw p.2).filter fun w =>
      decide (w ∈ significantKeywords kw p.1)).flatten

/-- One member's updates as grouped by lines 569-597: member name and the
(timestamp, combined text) pairs. -/
structure MemberUpdates where
  name : String
  updates : List (ℕ × String)

/-- One entry of the returned list (lines 669-674). -/
structure KeywordResult where
  team_member : String
  repeated_keywords : List (String × ℕ)
  total_updates : ℕ

/-- The member's texts in timestamp order (line 620). -/
def sortedTexts (m : MemberUpdates) : List String :=
  (sortAscBy Prod.fst m.updates).map Prod.snd

/-- Per-member analysis (lines 615-674): members with fewer than 2 updates are
skipped; a member with an empty repeated-keyword dict is skipped; otherwise the
dict items (keyword, pair count) are returned with the update count. -/
def analyzeMember (kw : String → List String) (m : MemberUpdates) :
    Option KeywordResult :=
  if m.updates.length < 2 then none
  else if (repeatedStream kw (sortedTexts m)).isEmpty then none
  else some
    { team_member := m.name
      repeated_keywords := (repeatedStream kw (sortedTexts m)).dedup.map fun k =>
        (k, (repeatedStream kw (sortedTexts m)).count k)
      total_updates := m.updates.length }

/-- Sort key of line 677: the sum of all keyword counts of the entry. -/
def keywordTotal (r : KeywordResult) : ℕ := (r.repeated_keywords.map Prod.snd).sum

/-- Embedding of `get_keyword_repetition` (src/main.py, lines 549-684): analyze
each member, drop the skipped ones, and sort descending by total keyword
count. -/
def get_keyword_repetition (kw : String → List String)
    (members : List MemberUpdates) : List KeywordResult :=
  sortDescBy keywordTotal (members.filterMap (analyzeMember kw))

theorem analyzeMember_name (kw : String → List String) (m : MemberUpdates)
    (r : KeywordResult) (h : analyzeMember kw m = some r) :
    r.team_member = m.name := by
  unfold analyzeMember at h
  split at h
  · cases h
  · split at h
    · cases h
    · obtain rfl := Option.some_inj.mp h.symm
      rfl

theorem repeatedStream_eq_nil_iff (kw : String → List String) (texts : List String) :
    repeatedStream kw texts = [] ↔
      ∀ p ∈ texts.zip texts.tail, ∀ w ∈ significantKeywords kw p.2,
        w ∉ significantKeywords kw p.1 := by
  unfold repeatedStream
  rw [List.flatten_eq_nil_iff]
  constructor
  · intro h p hp w hw hw1
    have hnil := h _ (List.mem_map_of_mem _ hp)
    rw [List.filter_eq_nil_iff] at hnil
    exact (hnil w hw) (decide_eq_true hw1)
  · intro h l hl
    rcases List.mem_map.mp hl with ⟨p, hp, rfl⟩
    rw [List.filter_eq_nil_iff]
    intro w hw hd
    exact h p hp w hw (of_decide_eq_true hd)

/-- C10: a member appears in the Keyword Repetition Analyzer's output iff they
have at least 2 updates in the window and some consecutive pair of their
timestamp-sorted updates shares a significant keyword (so a member with a
single update never appears), and the output is sorted descending by the sum
of all keyword counts. -/
theorem keyword_membership (kw : String → List String)
    (members : List MemberUpdates)
    (hnames : (members.map MemberUpdates.name).Nodup)
    (m : MemberUpdates) (hm : m ∈ members) :
    ((∃ r ∈ get_keyword_repetition kw members, r.team_member = m.name) ↔
      (2 ≤ m.updates.length ∧
        ∃ p ∈ (sortedTexts m).zip (sortedTexts m).tail,
          ∃ w, w ∈ significantKeywords kw p.1 ∧ w ∈ significantKeywords kw p.2)) ∧
    (get_keyword_repetition kw members).Pairwise
      (fun a b => keywordTotal b ≤ keywordTotal a) := by
  constructor
  · constructor
    · rintro ⟨r, hr, hname⟩
      unfold get_keyword_repetition at hr
      rw [mem_sortDescBy] at hr
      rcases List.mem_filterMap.mp hr with ⟨m', hm', hsome⟩
      have hmm : m' = m := by
        refine List.inj_on_of_nodup_map hnames hm' hm ?_
        rw [← analyzeMember_name kw m' r hsome, hname]
      subst hmm
      unfold analyzeMember at hsome
      split at hsome
      · cases hsome
      · rename_i hlen
        split at hsome
        · cases hsome
        · rename_i hne
          refine ⟨by omega, ?_⟩
          have hnil : repeatedStream kw (sortedTexts m') ≠ [] := by
            intro h
            exact hne (by rw [h]; rfl)
          rw [Ne, repeatedStream_eq_nil_iff] at hnil
          push_neg at hnil
          rcases hnil with ⟨p, hp, w, hw2, hw1⟩
          exact ⟨p, hp, w, hw1, hw2⟩
    · rintro ⟨hlen, p, hp, w, hw1, hw2⟩
      have hnil : repeatedStream kw (sortedTexts m) ≠ [] := by
        rw [Ne, repeatedStream_eq_nil_iff]
        push_neg
        exact ⟨p, hp, w, hw2, hw1⟩
      have hsome : analyzeMember kw m = some
          { team_member := m.name
            repeated_keywords := (repeatedStream kw (sortedTexts m)).dedup.map fun k =>
              (k, (repeatedStream kw (sortedTexts m)).count k)
            total_updates := m.updates.length } := by
        unfold analyzeMember
        rw [if_neg (by omega), if_neg (by
          intro h
          exact hnil (List.isEmpty_iff.mp h))]
      obtain ⟨r, hr_eq⟩ : ∃ r, analyzeMember kw m = some r := ⟨_, hsome⟩
      have hmem2 : r ∈ get_keyword_repetition kw members := by
        unfold get_keyword_repetition
        rw [mem_sortDescBy]
        exact List.mem_filterMap.mpr ⟨m, hm, hr_eq⟩
      exact ⟨r, hmem2, analyzeMember_name kw m r hr_eq⟩
  · exact sortDescBy_pairwise keywordTotal (members.filterMap (analyzeMember kw))

/-- Member with two updates repeating the significant keyword `database`. -/
def aliceMember : MemberUpdates :=
  ⟨"alice", [(0, "database database speed"), (1, "database database memory")]⟩

/-- Member with a single update. -/
def bobMember : MemberUpdates :=
  ⟨"bob", [(0, "database database speed")]⟩

/-- Concrete analyzer input. -/
def kwMembers : List MemberUpdates := [aliceMember, bobMember]

/-- C10 witness: with the fallback tokenizer, the two-update member sharing the
significant keyword `database` across the consecutive pair appears in the
output, and the single-update member does not. -/
theorem keyword_membership_witness :
    (∃ r ∈ get_keyword_repetition fallbackTokenize kwMembers,
      r.team_member = "alice") ∧
    ¬ (∃ r ∈ get_keyword_repetition fallbackTokenize kwMembers,
      r.team_member = "bob") := by
  constructor
  · exact (keyword_membership fallbackTokenize kwMembers (by decide) aliceMember
      (List.mem_cons_self _ _)).1.mpr
      ⟨by decide,
        ("database database speed", "database database memory"), by decide,
        "database", by decide, by decide⟩
  · intro hbob
    have h := (keyword_membership fallbackTokenize kwMembers (by decide) bobMember
      (List.mem_cons_of_mem _ (List.mem_cons_self _ _))).1.mp hbob
    exact absurd h.1 (by decide)

end EPragati
